import Mathlib

/-!
Shallow embedding of the axis-semantics normalization and adaptive
display-scaling core of the `spectator` repository
(`src/controllers/app_controller.py`, duplicated in `src/data_manager.py`).

Numeric array values are modelled exactly over `ℚ`; NaN/Infinity entries are
modelled by a separate constructor, mirroring the `np.isfinite` filtering in
the source.  `round(np.log10 r)` is modelled by its exact real-number
semantics over `ℚ` (ties at half-decades cannot occur at rational inputs, so
the round-half-to-even behaviour of Python's `round` never fires).
-/

deriving instance DecidableEq for Except

namespace Spectator

/-- The `AxisType` enum of `app_controller.py`: the closed set of axis roles. -/
inductive AxisType
  | STATES
  | SPECTRAL
  | SPATIAL
  | TIME
deriving DecidableEq, Repr, Fintype

open AxisType

/-- String value of each enum member (`AxisType.STATES.value == "states"`). -/
def AxisType.value : AxisType → String
  | STATES => "states"
  | SPECTRAL => "spectral"
  | SPATIAL => "spatial"
  | TIME => "time"

/-- Error taxonomy of the pipeline.  The Python code raises `ValueError` with
distinct messages (plus `NotImplementedError`); each distinct raise site /
message family is one constructor here. -/
inductive PErr
  | axisCountMismatch
  | invalidAxisCount
  | unknownAxisLabel (label : String)
  | duplicateAxisRole (role : AxisType)
  | invalidSingleAxis
  | unsupportedRank (n : ℕ)
  | targetAxisNotFound (role : AxisType)
  | dataDimsMismatch
  | stateNamesCountMismatch
  | tooManyStates
  | repeatedAxisInTranspose
  | axesDontMatchArray
deriving DecidableEq, Repr

/-- `DataDimensionality.max_dimensions`. -/
def max_dimensions : ℕ := 5

/-- `DataDimensionality.max_states`. -/
def max_states : ℕ := 8

/-- `DataDimensionality.max_spatial_axes`. -/
def max_spatial_axes : ℕ := 2

/-- Character-wise lowercasing, modelling Python `str.lower()` for the ASCII
labels involved here. -/
def strLower (s : String) : String := String.mk (s.data.map Char.toLower)

/-- `AxisType(axis.lower())`: enum lookup by value, `none` when the lowered
string matches no member (Python raises `ValueError`, caught and re-raised as
the unknown-label error). -/
def parseAxisLabel (s : String) : Option AxisType :=
  if strLower s = "states" then some STATES
  else if strLower s = "spectral" then some SPECTRAL
  else if strLower s = "spatial" then some SPATIAL
  else if strLower s = "time" then some TIME
  else none

/-- `DataDimensionality._validate_axis_combinations`: arity caps checked in
source order (states, spatial, spectral, time), then the rank-1 rule. -/
def validate_axis_combinations (axis_types : List AxisType) : Except PErr Unit :=
  if axis_types.count STATES > 1 then .error (.duplicateAxisRole STATES)
  else if axis_types.count SPATIAL > max_spatial_axes then .error (.duplicateAxisRole SPATIAL)
  else if axis_types.count SPECTRAL > 1 then .error (.duplicateAxisRole SPECTRAL)
  else if axis_types.count TIME > 1 then .error (.duplicateAxisRole TIME)
  else if axis_types.length = 1 ∧ axis_types.getD 0 STATES ∉ [SPATIAL, SPECTRAL, TIME] then
    .error .invalidSingleAxis
  else .ok ()

/-- `DataDimensionality.validate_axis_specification`: the `max_dimensions` cap
first, then label conversion left to right, then the combination rules. -/
def validate_axis_specification (axes : List String) : Except PErr (List AxisType) :=
  if axes.length > max_dimensions then .error .invalidAxisCount
  else do
    let axis_types ← axes.mapM (fun a =>
      match parseAxisLabel a with
      | some t => Except.ok t
      | none => Except.error (PErr.unknownAxisLabel a))
    match validate_axis_combinations axis_types with
    | .ok _ => .ok axis_types
    | .error e => .error e

/-- One array element: a finite float value modelled exactly over `ℚ`, or a
non-finite value (NaN or ±Infinity), which `np.isfinite` filters out. -/
inductive FVal
  | fin (q : ℚ)
  | nonfin
deriving DecidableEq, Repr

/-- Multiplication of an element by a finite nonzero scale factor: finite
values scale, non-finite values stay non-finite. -/
def FVal.mul (v : FVal) (c : ℚ) : FVal :=
  match v with
  | .fin q => .fin (q * c)
  | .nonfin => .nonfin

/-- An `np.ndarray`: a shape together with the element at each index vector
(only index vectors componentwise below the shape are meaningful). -/
structure NDArray where
  shape : List ℕ
  val : List ℕ → FVal

/-- Index of the first occurrence of `t` in `l` (Python `list.index`,
returning `none` where Python raises `ValueError`). -/
def firstIndex {α : Type} [DecidableEq α] : List α → α → Option ℕ
  | [], _ => none
  | a :: l, t => if a = t then some 0 else (firstIndex l t).map (· + 1)

/-- The `axis_mapping` loop of `DataRearranger.rearrange_data`: for each
target axis, `input_axes.index(target_axis)` — always the first occurrence,
with no consumption of already-used positions. -/
def axisMapping (input_axes : List AxisType) : List AxisType → Except PErr (List ℕ)
  | [] => .ok []
  | t :: ts =>
    match firstIndex input_axes t with
    | some i =>
      match axisMapping input_axes ts with
      | .ok rest => .ok (i :: rest)
      | .error e => .error e
    | none => .error (.targetAxisNotFound t)

/-- `np.transpose(data, perm)`: rejects a `perm` that is not a permutation of
`0..ndim-1` (numpy raises `ValueError`, e.g. "repeated axis in transpose");
otherwise output axis `k` is input axis `perm[k]`. -/
def npTranspose (d : NDArray) (perm : List ℕ) : Except PErr NDArray :=
  if perm.length ≠ d.shape.length then .error .axesDontMatchArray
  else if ¬ perm.Nodup then .error .repeatedAxisInTranspose
  else if ¬ (∀ i ∈ perm, i < d.shape.length) then .error .axesDontMatchArray
  else .ok ⟨perm.map (fun i => d.shape.getD i 0),
    fun idx => d.val ((List.range perm.length).map
      (fun p => idx.getD ((firstIndex perm p).getD 0) 0))⟩

/-- `DataRearranger.rearrange_data`: dimension check, first-occurrence axis
mapping, then `np.transpose`. -/
def rearrange_data (data : NDArray) (input_axes target_axes : List AxisType) :
    Except PErr NDArray :=
  if data.shape.length ≠ input_axes.length then .error .dataDimsMismatch
  else
    match axisMapping input_axes target_axes with
    | .ok mapping => npTranspose data mapping
    | .error e => .error e

/-- `DataRearranger.target_order_3d`. -/
def target_order_3d : List AxisType := [STATES, SPECTRAL, SPATIAL]

/-- `DataRearranger.target_order_5d`. -/
def target_order_5d : List AxisType := [STATES, SPECTRAL, SPATIAL, SPATIAL, TIME]

/-- One step `target_order.append(target_order.pop(i))` of the rank ≤ 2
spatial-to-end loop. -/
def popAppend (l : List AxisType) (i : ℕ) : List AxisType :=
  l.eraseIdx i ++ [l.getD i STATES]

/-- The rank ≤ 2 branch of `get_target_order`: record the spatial positions,
then pop/append them in reverse index order. -/
def moveSpatialToEnd (l : List AxisType) : List AxisType :=
  if SPATIAL ∈ l then
    let spatial_indices := (List.range l.length).filter (fun i => l.getD i STATES = SPATIAL)
    spatial_indices.reverse.foldl popAppend l
  else l

/-- `DataRearranger._arrange_custom_3d`: scan the priority list, then append
the extra SPATIAL copies. -/
def arrange_custom_3d (input_axes : List AxisType) : List AxisType :=
  let priority := [STATES, SPECTRAL, SPATIAL, TIME]
  let target_order := priority.filter (fun t => t ∈ input_axes)
  let spatial_count := input_axes.count SPATIAL
  if spatial_count > 1 then target_order ++ List.replicate (spatial_count - 1) SPATIAL
  else target_order

/-- `DataRearranger._arrange_4d`: STATES first when present, then for each
role of the priority list all its occurrences among the remaining axes. -/
def arrange_4d (input_axes : List AxisType) : List AxisType :=
  let start := if STATES ∈ input_axes then [STATES] else []
  let remaining := if STATES ∈ input_axes then input_axes.erase STATES else input_axes
  start ++ ([SPECTRAL, SPATIAL, TIME].map (fun p => List.replicate (remaining.count p) p)).flatten

/-- `DataRearranger.get_target_order`, dispatching on the rank. -/
def get_target_order (input_axes : List AxisType) : Except PErr (List AxisType) :=
  let ndim := input_axes.length
  if ndim ≤ 2 then .ok (moveSpatialToEnd input_axes)
  else if ndim = 3 then
    if input_axes.toFinset = ({STATES, SPECTRAL, SPATIAL} : Finset AxisType) then
      .ok target_order_3d
    else .ok (arrange_custom_3d input_axes)
  else if ndim = 4 then .ok (arrange_4d input_axes)
  else if ndim = 5 then .ok target_order_5d
  else .error (.unsupportedRank ndim)

/-- `ViewerSelector.select_viewer`: chosen solely by the rank. -/
def select_viewer (data_shape : List ℕ) : Except PErr String :=
  match data_shape.length with
  | 1 => .ok "plot_1d"
  | 2 => .ok "plot_2d"
  | 3 => .ok "spectator"
  | 4 => .ok "plot_4d"
  | 5 => .ok "plot_5d"
  | n => .error (.unsupportedRank n)

/-- The finite entries of a value list (`data[np.isfinite(data)]`). -/
def finiteVals (data : List FVal) : List ℚ :=
  data.filterMap (fun v => match v with | .fin q => some q | .nonfin => none)

/-- `np.max(np.abs(valid_data))`; the `0` base is inert because absolute
values are nonnegative and the caller guards the empty case. -/
def dataMaxAbs (l : List ℚ) : ℚ := (l.map abs).foldr max 0

/-- Exact model of `round(np.log10 r)` for a positive rational `r`: the
unique `e` with `10 ^ (2e-1) < r² < 10 ^ (2e+1)`.  The halves are removed by
squaring; a tie `r² = 10^odd` is impossible for rational `r`, so Python's
round-half-to-even never fires. -/
def roundLog10 (r : ℚ) : ℤ := (Int.log 10 (r ^ 2) + 1) / 2

/-- `DataScaler._format_exponent`: decimal digits mapped to superscripts. -/
def superscriptChar (c : Char) : Char :=
  if c = '0' then '⁰' else if c = '1' then '¹' else if c = '2' then '²'
  else if c = '3' then '³' else if c = '4' then '⁴' else if c = '5' then '⁵'
  else if c = '6' then '⁶' else if c = '7' then '⁷' else if c = '8' then '⁸'
  else if c = '9' then '⁹' else if c = '-' then '⁻' else c

/-- `DataScaler._format_exponent`. -/
def format_exponent (e : ℤ) : String :=
  if e = 0 then "" else String.mk ((toString e).data.map superscriptChar)

/-- The label built in `analyze_data_range`: `"×10" + superscript digits`
for a nonzero exponent, empty otherwise. -/
def scale_label (e : ℤ) : String :=
  if e = 0 then "" else "×10" ++ format_exponent e

/-- The `(scale_factor, exponent, label)` triple of `analyze_data_range`. -/
structure ScaleTriple where
  factor : ℚ
  exponent : ℤ
  label : String
deriving DecidableEq, Repr

/-- The identity scaling `(1.0, 0, "")`. -/
def identityTriple : ScaleTriple := ⟨1, 0, ""⟩

/-- `DataScaler.analyze_data_range`.  `target_max_value = 10.0`; the target
value for the decade snap is `5.0`. -/
def analyze_data_range (data : List FVal) : ScaleTriple :=
  if data.length = 0 then identityTriple
  else
    let valid := finiteVals data
    if valid.length = 0 then identityTriple
    else
      let data_max := dataMaxAbs valid
      if data_max = 0 then identityTriple
      else if 1/10 ≤ data_max ∧ data_max ≤ 10 then identityTriple
      else
        let exponent := roundLog10 (5 / data_max)
        ⟨(10:ℚ) ^ exponent, exponent, scale_label exponent⟩

/-- A key of the scaler's result dictionaries: the sentinel `'global'` or an
integer state index. -/
inductive ScaleKey
  | global
  | state (i : ℕ)
deriving DecidableEq, Repr

/-- Python-dict item assignment on an association list: update in place when
the key exists, append otherwise. -/
def dictSet {β : Type} (d : List (ScaleKey × β)) (k : ScaleKey) (v : β) :
    List (ScaleKey × β) :=
  if d.any (fun p => p.1 = k) then d.map (fun p => if p.1 = k then (k, v) else p)
  else d ++ [(k, v)]

/-- Python-dict lookup on an association list. -/
def dictGet {β : Type} (d : List (ScaleKey × β)) (k : ScaleKey) : Option β :=
  (d.find? (fun p => p.1 = k)).map Prod.snd

/-- The mutable state of a `DataScaler` instance. -/
structure ScalerState where
  factors : List (ScaleKey × ℚ)
  exponents : List (ScaleKey × ℤ)
  labels : List (ScaleKey × String)
  has_states_axis : Bool
  states_axis_index : Option ℕ

/-- A freshly constructed `DataScaler` (also the result of `reset_scaling`). -/
def ScalerState.init : ScalerState := ⟨[], [], [], false, none⟩

/-- All index vectors of a given shape, in row-major order. -/
def indexSpace : List ℕ → List (List ℕ)
  | [] => [[]]
  | n :: rest => ((List.range n).map (fun i => (indexSpace rest).map (fun idx => i :: idx))).flatten

/-- The element list of the whole array (row-major flattening). -/
def NDArray.flatVals (d : NDArray) : List FVal := (indexSpace d.shape).map d.val

/-- Insertion of a coordinate at a given axis position: `insertAt s i sub` is
the full index vector whose coordinate at axis `s` is `i` and whose other
coordinates are `sub` in order. -/
def insertAt : ℕ → ℕ → List ℕ → List ℕ
  | 0, i, l => i :: l
  | _ + 1, i, [] => [i]
  | s + 1, i, a :: l => a :: insertAt s i l

/-- The element list of `data[state_slice]`: the full array with the states
axis fixed to `i`, flattened in row-major order. -/
def sliceVals (d : NDArray) (axis : ℕ) (i : ℕ) : List FVal :=
  (indexSpace (d.shape.eraseIdx axis)).map (fun sub => d.val (insertAt axis i sub))

/-- `DataScaler.scale_data`.  Returns the post-call scaler state together
with the (possibly) scaled array.  The global branch replaces the result
dictionaries wholesale; the per-state branch assigns the keys
`0..n_states-1` one by one into the existing dictionaries. -/
def scale_data (st : ScalerState) (d : NDArray) (target_axes : List AxisType)
    (auto_scale : Bool) : ScalerState × NDArray :=
  if !auto_scale then (st, d)
  else if !(target_axes.any (fun ax => ax = STATES)) then
    let t := analyze_data_range d.flatVals
    let st' : ScalerState :=
      { st with factors := [(ScaleKey.global, t.factor)],
                exponents := [(ScaleKey.global, t.exponent)],
                labels := [(ScaleKey.global, t.label)],
                has_states_axis := false }
    if t.factor ≠ 1 then (st', ⟨d.shape, fun idx => (d.val idx).mul t.factor⟩)
    else (st', d)
  else
    let sIdx := (firstIndex target_axes STATES).getD 0
    let n_states := d.shape.getD sIdx 0
    let st0 : ScalerState := { st with has_states_axis := true, states_axis_index := some sIdx }
    let stFinal := (List.range n_states).foldl (fun acc i =>
      let t := analyze_data_range (sliceVals d sIdx i)
      { acc with factors := dictSet acc.factors (ScaleKey.state i) t.factor,
                 exponents := dictSet acc.exponents (ScaleKey.state i) t.exponent,
                 labels := dictSet acc.labels (ScaleKey.state i) t.label }) st0
    let out : NDArray := ⟨d.shape, fun idx =>
      let i := idx.getD sIdx 0
      if i < n_states then
        let t := analyze_data_range (sliceVals d sIdx i)
        if t.factor ≠ 1 then (d.val idx).mul t.factor else d.val idx
      else d.val idx⟩
    (stFinal, out)

/-- The dictionary handed out by `DataScaler.get_scale_info`. -/
structure ScaleInfo where
  factors : List (ScaleKey × ℚ)
  exponents : List (ScaleKey × ℤ)
  labels : List (ScaleKey × String)
  is_scaled : Bool
  has_states_axis : Bool
  states_axis_index : Option ℕ

/-- `DataScaler.get_scale_info`. -/
def get_scale_info (st : ScalerState) : ScaleInfo :=
  ⟨st.factors, st.exponents, st.labels,
   st.factors.any (fun p => p.2 ≠ 1), st.has_states_axis, st.states_axis_index⟩

/-- The `states_info` record built by `Manager._parse_input_args`. -/
structure StatesInfo where
  names : List String
  count : ℕ
  axis_index : ℕ
deriving DecidableEq, Repr

/-- `Manager._parse_input_args`: the labels-vs-rank arity check first, then
(if a `'states'` label is present, located at its first occurrence) the
state-name cap and count checks, in that order. -/
def parse_input_args (shape : List ℕ) (state_names : Option (List String))
    (axes : List String) : Except PErr (List String × Option StatesInfo) :=
  if axes.length ≠ shape.length then .error .axisCountMismatch
  else if "states" ∈ axes then
    let states_axis_index := (firstIndex axes "states").getD 0
    let n_states := shape.getD states_axis_index 0
    match state_names with
    | some names =>
      if names.length > max_states then .error .tooManyStates
      else if names.length ≠ n_states then .error .stateNamesCountMismatch
      else .ok (axes, some ⟨names, n_states, states_axis_index⟩)
    | none =>
      .ok (axes, some ⟨(List.range n_states).map (fun i => toString (i + 1)),
                       n_states, states_axis_index⟩)
  else .ok (axes, none)

/-- The input-parsing and validation prefix of `Manager.display_data`:
`_parse_input_args` followed by `validate_axis_specification`. -/
def display_validate (shape : List ℕ) (axes : List String)
    (state_names : Option (List String)) :
    Except PErr (List AxisType × Option StatesInfo) :=
  match parse_input_args shape state_names axes with
  | .error e => .error e
  | .ok (input_axes, states_info) =>
    match validate_axis_specification input_axes with
    | .error e => .error e
    | .ok validated => .ok (validated, states_info)

/-! Helper lemmas about `analyze_data_range`. -/

/-- The empty-array branch. -/
lemma analyze_of_isEmpty {data : List FVal} (h : data.length = 0) :
    analyze_data_range data = identityTriple := by
  simp only [analyze_data_range, h, if_pos rfl]
  simp

/-- The all-non-finite branch. -/
lemma analyze_of_noFinite {data : List FVal} (h : (finiteVals data).length = 0) :
    analyze_data_range data = identityTriple := by
  simp only [analyze_data_range, h]
  split_ifs <;> rfl

/-- The zero-maximum branch. -/
lemma analyze_of_maxZero {data : List FVal} (h : dataMaxAbs (finiteVals data) = 0) :
    analyze_data_range data = identityTriple := by
  simp only [analyze_data_range, h]
  split_ifs <;> rfl

/-- The already-legible band branch. -/
lemma analyze_of_band {data : List FVal}
    (h1 : 1/10 ≤ dataMaxAbs (finiteVals data)) (h2 : dataMaxAbs (finiteVals data) ≤ 10) :
    analyze_data_range data = identityTriple := by
  simp only [analyze_data_range]
  split_ifs with a b c d <;> first | rfl | exact absurd (And.intro h1 h2) d

/-! Claim C9. -/

/-- Claim C9: `_validate_axis_combinations` raises `DuplicateAxisRole` exactly
when the sequence has more than one STATES, more than two SPATIAL, more than
one SPECTRAL, or more than one TIME, and raises `InvalidSingleAxis` exactly
when the sequence has length 1 and its only role is not one of SPATIAL,
SPECTRAL, TIME; in particular the three rejection examples from the spec
hold at the string level through `validate_axis_specification`. -/
theorem claim_C9 :
    (∀ l : List AxisType,
      (∃ r, validate_axis_combinations l = .error (.duplicateAxisRole r)) ↔
        (1 < l.count STATES ∨ max_spatial_axes < l.count SPATIAL ∨
         1 < l.count SPECTRAL ∨ 1 < l.count TIME)) ∧
    (∀ l : List AxisType,
      validate_axis_combinations l = .error .invalidSingleAxis ↔
        (l.length = 1 ∧ l.getD 0 STATES ∉ [SPATIAL, SPECTRAL, TIME])) ∧
    validate_axis_specification ["states", "states", "spatial"]
      = .error (.duplicateAxisRole STATES) ∧
    validate_axis_specification ["states"] = .error .invalidSingleAxis ∧
    validate_axis_specification ["states", "spectral", "spatial", "spatial", "spatial"]
      = .error (.duplicateAxisRole SPATIAL) := by
  refine ⟨?_, ?_, by decide, by decide, by decide⟩
  · intro l
    constructor
    · rintro ⟨r, hr⟩
      unfold validate_axis_combinations at hr
      split_ifs at hr with h1 h2 h3 h4 h5 <;> simp_all
    · intro h
      unfold validate_axis_combinations
      split_ifs with h1 h2 h3 h4 h5
      · exact ⟨STATES, rfl⟩
      · exact ⟨SPATIAL, rfl⟩
      · exact ⟨SPECTRAL, rfl⟩
      · exact ⟨TIME, rfl⟩
      · rcases h with h | h | h | h <;> omega
      · rcases h with h | h | h | h <;> omega
  · intro l
    constructor
    · intro hr
      unfold validate_axis_combinations at hr
      split_ifs at hr with h1 h2 h3 h4 h5
      · simp at hr
      · simp at hr
      · simp at hr
      · simp at hr
      · exact h5
    · rintro ⟨hlen, hrole⟩
      unfold validate_axis_combinations
      have c1 := hlen ▸ List.count_le_length STATES l
      have c2 := hlen ▸ List.count_le_length SPATIAL l
      have c3 := hlen ▸ List.count_le_length SPECTRAL l
      have c4 := hlen ▸ List.count_le_length TIME l
      rw [if_neg (by omega), if_neg (by simp only [max_spatial_axes]; omega),
        if_neg (by omega), if_neg (by omega), if_pos ⟨hlen, hrole⟩]

/-! Claim C4. -/

/-- Claim C4 counterexample: a rank-3 array with 6 axis labels raises
`AxisCountMismatch` (the labels-vs-rank check of `_parse_input_args`), not
`InvalidAxisCount`, refuting the claim that 6 labels always produce
`InvalidAxisCount` whatever the rank. -/
theorem claim_C4_counterexample :
    display_validate [2, 3, 4]
      ["states", "spectral", "spatial", "time", "spatial", "spectral"] none
      = .error .axisCountMismatch ∧
    display_validate [2, 3, 4]
      ["states", "spectral", "spatial", "time", "spatial", "spectral"] none
      ≠ .error .invalidAxisCount := by
  constructor <;> decide

/-- Claim C4 amended: a `display_data` call with 6 axis labels raises
`InvalidAxisCount` only when the array rank is also 6 (so the earlier
labels-vs-rank check passes); for every other rank the labels-vs-rank check
fires first with `AxisCountMismatch`.  The rank check reads the array's
shape, so the array is inspected before the 5-cap check. -/
theorem claim_C4_amended (shape : List ℕ) (labels : List String)
    (h6 : labels.length = 6) :
    (shape.length = 6 → display_validate shape labels none = .error .invalidAxisCount) ∧
    (shape.length ≠ 6 → display_validate shape labels none = .error .axisCountMismatch) := by
  constructor
  · intro hsh
    have hval : validate_axis_specification labels = .error .invalidAxisCount := by
      unfold validate_axis_specification
      rw [if_pos (by rw [h6]; norm_num [max_dimensions])]
    have hparse : ∃ si, parse_input_args shape none labels = .ok (labels, si) := by
      unfold parse_input_args
      rw [if_neg (by simp [h6, hsh])]
      by_cases hst : "states" ∈ labels
      · rw [if_pos hst]; exact ⟨_, rfl⟩
      · rw [if_neg hst]; exact ⟨_, rfl⟩
    obtain ⟨si, hp⟩ := hparse
    unfold display_validate
    rw [hp]
    simp [hval]
  · intro hne
    unfold display_validate parse_input_args
    rw [if_pos (by omega)]

/-- Witness for the amended C4 at concrete inputs of rank 6 and rank 2. -/
theorem claim_C4_amended_witness :
    display_validate [1, 1, 1, 1, 1, 1]
      ["states", "spectral", "spatial", "time", "spatial", "x"] none
      = .error .invalidAxisCount ∧
    display_validate [1, 1]
      ["states", "spectral", "spatial", "time", "spatial", "x"] none
      = .error .axisCountMismatch :=
  ⟨(claim_C4_amended [1, 1, 1, 1, 1, 1] _ (by decide)).1 (by decide),
   (claim_C4_amended [1, 1] _ (by decide)).2 (by decide)⟩

/-! Claim C10. -/

/-- Claim C10: in `display_data`, when a `'states'` label is present and
`state_names` is supplied, the cap check (`> 8` raises `TooManyStates`) runs
before the count-equality check (raises `StateNamesCountMismatch` against
the size at the first `'states'` position), and both run before role
validation — the statement holds for arbitrary label lists, including ones
with a duplicate `'states'` that role validation would reject. -/
theorem claim_C10 (shape : List ℕ) (labels : List String) (names : List String)
    (hlen : labels.length = shape.length) (hst : "states" ∈ labels) :
    (names.length > max_states →
      display_validate shape labels (some names) = .error .tooManyStates) ∧
    (names.length ≤ max_states →
      names.length ≠ shape.getD ((firstIndex labels "states").getD 0) 0 →
      display_validate shape labels (some names) = .error .stateNamesCountMismatch) := by
  constructor
  · intro hcap
    have hp : parse_input_args shape (some names) labels = .error .tooManyStates := by
      simp only [parse_input_args, hlen, hst]
      simp [hcap]
    unfold display_validate
    rw [hp]
  · intro hc1 hc2
    have hp : parse_input_args shape (some names) labels
        = .error .stateNamesCountMismatch := by
      simp only [parse_input_args, hlen, hst]
      have hcap : ¬ max_states < names.length := by omega
      have hc2a : names.length ≠ shape[(firstIndex labels "states").getD 0]?.getD 0 := by
        simpa [List.getD] using hc2
      simp [hcap, hc2a]
    unfold display_validate
    rw [hp]

/-- Witness for C10: 9 names on a 4-state axis give `TooManyStates`; labels
with a duplicate `'states'` and a name count matching the second states
position but not the first give `StateNamesCountMismatch` (computed against
the first position), not `DuplicateAxisRole`. -/
theorem claim_C10_witness :
    display_validate [4, 4, 5] ["states", "spectral", "spatial"]
      (some ["1", "2", "3", "4", "5", "6", "7", "8", "9"]) = .error .tooManyStates ∧
    display_validate [4, 7, 5] ["states", "states", "spatial"]
      (some ["1", "2", "3", "4", "5", "6", "7"]) = .error .stateNamesCountMismatch :=
  ⟨(claim_C10 _ _ _ (by decide) (by decide)).1 (by decide),
   (claim_C10 _ _ _ (by decide) (by decide)).2 (by decide) (by decide)⟩


/-! Concrete arrays used by several claims. -/

/-- A rank-3 array of shape (2, 3, 4). -/
def arr234 : NDArray := ⟨[2, 3, 4], fun _ => .fin 0⟩

/-- The rank-3 array of shape (4, 150, 250) from scenario A of the spec. -/
def arrC8 : NDArray := ⟨[4, 150, 250], fun _ => .fin 0⟩

/-- A rank-1 array of shape (2,) with all entries 1. -/
def dGlobal : NDArray := ⟨[2], fun _ => .fin 1⟩

/-- A rank-2 array of shape (2, 2) with all entries 1. -/
def dStates : NDArray := ⟨[2, 2], fun _ => .fin 1⟩

/-! Claim C8. -/

/-- Claim C8: for input shape (4, 150, 250) labeled (states, spatial,
spectral), `get_target_order` returns (states, spectral, spatial) and the
permuted array has shape (4, 250, 150). -/
theorem claim_C8 :
    get_target_order [STATES, SPATIAL, SPECTRAL] = .ok [STATES, SPECTRAL, SPATIAL] ∧
    ∃ b, rearrange_data arrC8 [STATES, SPATIAL, SPECTRAL] [STATES, SPECTRAL, SPATIAL]
      = .ok b ∧ b.shape = [4, 250, 150] := by
  refine ⟨by decide, _, rfl, by decide⟩

/-! Claim C1. -/

/-- Claim C1 counterexample: with a repeated SPATIAL role the mapping built
by `rearrange_data` is `input_axes.index(role)` for each target role, so the
repeated role maps to the same input position twice: the mapping for input
(spatial, spectral, spatial) and target (spectral, spatial, spatial) is
[1, 0, 0] — not the claimed consumed-left-to-right [1, 0, 2], and not a
permutation — and `np.transpose` rejects it, so `rearrange_data` fails. -/
theorem claim_C1_counterexample :
    axisMapping [SPATIAL, SPECTRAL, SPATIAL] [SPECTRAL, SPATIAL, SPATIAL] = .ok [1, 0, 0] ∧
    ¬ ([1, 0, 0] : List ℕ).Nodup ∧
    (rearrange_data arr234 [SPATIAL, SPECTRAL, SPATIAL] [SPECTRAL, SPATIAL, SPATIAL]).isOk
      = false := by
  refine ⟨by decide, by decide, by decide⟩

/-! Claim C2. -/

/-- Claim C2 counterexample: for the valid two-SPATIAL spec
(spatial, spectral, spatial), whose computed target order is
(spectral, spatial, spatial), the forward permutation itself fails (numpy
rejects the repeated transpose axis), so the round trip cannot hold for
every valid `AxisSpec` including those with two SPATIAL axes. -/
theorem claim_C2_counterexample :
    validate_axis_combinations [SPATIAL, SPECTRAL, SPATIAL] = .ok () ∧
    get_target_order [SPATIAL, SPECTRAL, SPATIAL] = .ok [SPECTRAL, SPATIAL, SPATIAL] ∧
    (rearrange_data arr234 [SPATIAL, SPECTRAL, SPATIAL] [SPECTRAL, SPATIAL, SPATIAL]).isOk
      = false := by
  refine ⟨by decide, by decide, by decide⟩

/-! Claim C3. -/

/-- Setting a key absent from a dict appends it. -/
lemma dictSet_of_not_mem {β : Type} {d : List (ScaleKey × β)} {k : ScaleKey} {v : β}
    (h : ∀ p ∈ d, p.1 ≠ k) : dictSet d k v = d ++ [(k, v)] := by
  have hc : d.any (fun p => p.1 = k) = false := by
    rw [List.any_eq_false]
    intro p hp
    simpa using h p hp
  simp [dictSet, hc]

/-- The per-state fold of `scale_data` updates the three dictionaries
componentwise. -/
lemma scaleFold_proj (d : NDArray) (sIdx : ℕ) (l : List ℕ) (st : ScalerState) :
    (l.foldl (fun acc i =>
      let t := analyze_data_range (sliceVals d sIdx i)
      { acc with factors := dictSet acc.factors (ScaleKey.state i) t.factor,
                 exponents := dictSet acc.exponents (ScaleKey.state i) t.exponent,
                 labels := dictSet acc.labels (ScaleKey.state i) t.label }) st)
    = { st with
        factors := l.foldl (fun fs i =>
          dictSet fs (ScaleKey.state i) (analyze_data_range (sliceVals d sIdx i)).factor)
          st.factors,
        exponents := l.foldl (fun fs i =>
          dictSet fs (ScaleKey.state i) (analyze_data_range (sliceVals d sIdx i)).exponent)
          st.exponents,
        labels := l.foldl (fun fs i =>
          dictSet fs (ScaleKey.state i) (analyze_data_range (sliceVals d sIdx i)).label)
          st.labels } := by
  induction l generalizing st with
  | nil => rfl
  | cons a t ih => simp only [List.foldl_cons, ih]

/-- Folding fresh `dictSet`s of the keys `state 0 .. state (n-1)` over the
empty dict produces exactly those keys in order. -/
lemma foldl_dictSet_range {β : Type} (v : ℕ → β) (n : ℕ) :
    ((List.range n).foldl (fun fs i => dictSet fs (ScaleKey.state i) (v i)) [])
      = (List.range n).map (fun i => (ScaleKey.state i, v i)) := by
  induction n with
  | zero => rfl
  | succ m ih =>
    rw [List.range_succ, List.foldl_append, List.foldl_cons, List.foldl_nil, ih,
      dictSet_of_not_mem]
    · simp
    · intro p hp
      simp only [List.mem_map, List.mem_range] at hp
      obtain ⟨i, hi, rfl⟩ := hp
      simp only [ne_eq, ScaleKey.state.injEq]
      omega

/-- Claim C3 counterexample: a global-path `scale_data` call (recording the
key `'global'`) followed by a per-state call (computing keys 0 and 1) leaves
the stale `'global'` key in the dictionaries reported by `get_scale_info`,
because the per-state branch assigns into the existing dicts instead of
replacing them. -/
theorem claim_C3_counterexample :
    ((get_scale_info (scale_data (scale_data ScalerState.init dGlobal [SPECTRAL] true).1
        dStates [STATES, SPECTRAL] true).1).factors.map Prod.fst
      = [ScaleKey.global, ScaleKey.state 0, ScaleKey.state 1]) ∧
    ScaleKey.global ∈ ((get_scale_info (scale_data (scale_data ScalerState.init dGlobal
        [SPECTRAL] true).1 dStates [STATES, SPECTRAL] true).1).factors.map Prod.fst) := by
  have hm : dataMaxAbs (finiteVals [FVal.fin 1, FVal.fin 1]) = 1 := by
    simp [finiteVals, dataMaxAbs, max_def]
  have h2 : analyze_data_range [FVal.fin 1, FVal.fin 1] = identityTriple :=
    analyze_of_band (by rw [hm]; norm_num) (by rw [hm]; norm_num)
  have h1 : dGlobal.flatVals = [FVal.fin 1, FVal.fin 1] := by
    simp [dGlobal, NDArray.flatVals, indexSpace, List.range_succ]
  have h3 : ∀ i, sliceVals dStates 0 i = [FVal.fin 1, FVal.fin 1] := by
    intro i
    simp [dStates, sliceVals, indexSpace, List.range_succ, insertAt]
  have hsh : dStates.shape = [2, 2] := rfl
  constructor
  · simp [scale_data, h1, h2, h3, hsh, get_scale_info, ScalerState.init, identityTriple,
      List.range_succ, dictSet, firstIndex]
  · simp [scale_data, h1, h2, h3, hsh, get_scale_info, ScalerState.init, identityTriple,
      List.range_succ, dictSet, firstIndex]

/-- Claim C3 amended: the global path of `scale_data` (no STATES axis)
replaces the stored dictionaries wholesale, so after it the keys are exactly
`['global']` whatever was stored before; the per-state path only assigns the
keys `0..n_states-1` into the existing dictionaries, so its keys are exactly
those computed in the call only when the dictionaries were empty beforehand
(fresh or reset scaler) — stale keys from an earlier call survive
otherwise. -/
theorem claim_C3_amended (st : ScalerState) (d : NDArray) (axes : List AxisType) :
    (STATES ∉ axes →
      ((scale_data st d axes true).1.factors.map Prod.fst = [ScaleKey.global] ∧
       (scale_data st d axes true).1.exponents.map Prod.fst = [ScaleKey.global] ∧
       (scale_data st d axes true).1.labels.map Prod.fst = [ScaleKey.global])) ∧
    (STATES ∈ axes → st.factors = [] → st.exponents = [] → st.labels = [] →
      ((scale_data st d axes true).1.factors.map Prod.fst
          = (List.range (d.shape.getD ((firstIndex axes STATES).getD 0) 0)).map ScaleKey.state ∧
       (scale_data st d axes true).1.exponents.map Prod.fst
          = (List.range (d.shape.getD ((firstIndex axes STATES).getD 0) 0)).map ScaleKey.state ∧
       (scale_data st d axes true).1.labels.map Prod.fst
          = (List.range (d.shape.getD ((firstIndex axes STATES).getD 0) 0)).map ScaleKey.state)) := by
  constructor
  · intro hno
    have hany : axes.any (fun ax => ax = STATES) = false := by
      rw [List.any_eq_false]
      intro a ha
      simp only [decide_eq_true_eq]
      intro he
      exact hno (he ▸ ha)
    simp only [scale_data, Bool.not_true, Bool.false_eq_true, if_false, hany,
      Bool.not_false, if_true]
    split_ifs <;> simp
  · intro hyes hf he hl
    have hany : axes.any (fun ax => ax = STATES) = true := by
      rw [List.any_eq_true]
      exact ⟨STATES, hyes, by simp⟩
    simp only [scale_data, Bool.not_true, Bool.false_eq_true, if_false, hany,
      Bool.not_false]
    rw [scaleFold_proj]
    simp only [hf, he, hl, foldl_dictSet_range]
    refine ⟨?_, ?_, ?_⟩ <;> simp

/-- Witness for the amended C3 at concrete inputs: a fresh global call
records exactly `['global']`; a fresh per-state call on a 2-state array
records exactly `[state 0, state 1]`. -/
theorem claim_C3_amended_witness :
    (scale_data ScalerState.init dGlobal [SPECTRAL] true).1.factors.map Prod.fst
      = [ScaleKey.global] ∧
    (scale_data ScalerState.init dStates [STATES, SPECTRAL] true).1.factors.map Prod.fst
      = [ScaleKey.state 0, ScaleKey.state 1] := by
  constructor
  · exact ((claim_C3_amended ScalerState.init dGlobal [SPECTRAL]).1 (by decide)).1
  · have h := ((claim_C3_amended ScalerState.init dStates [STATES, SPECTRAL]).2
      (by decide) rfl rfl rfl).1
    simpa [dStates, firstIndex, List.range_succ] using h

/-! Lemmas about `firstIndex` and the axis mapping. -/

lemma firstIndex_lt_length {α : Type} [DecidableEq α] {l : List α} {t : α} {i : ℕ}
    (h : firstIndex l t = some i) : i < l.length := by
  induction l generalizing i with
  | nil => simp [firstIndex] at h
  | cons a rest ih =>
    by_cases ha : a = t
    · simp only [firstIndex, if_pos ha, Option.some.injEq] at h
      subst h
      simp
    · simp only [firstIndex, if_neg ha] at h
      obtain ⟨j, hj, hji⟩ := Option.map_eq_some'.mp h
      subst hji
      have := ih hj
      simp only [List.length_cons]
      omega

lemma firstIndex_getD {α : Type} [DecidableEq α] {l : List α} {t : α} {i : ℕ}
    (h : firstIndex l t = some i) (dft : α) : l.getD i dft = t := by
  induction l generalizing i with
  | nil => simp [firstIndex] at h
  | cons a rest ih =>
    by_cases ha : a = t
    · simp only [firstIndex, if_pos ha, Option.some.injEq] at h
      subst h
      simpa using ha
    · simp only [firstIndex, if_neg ha] at h
      obtain ⟨j, hj, hji⟩ := Option.map_eq_some'.mp h
      subst hji
      simpa [List.getD] using ih hj

lemma firstIndex_of_mem {α : Type} [DecidableEq α] {l : List α} {t : α}
    (h : t ∈ l) : ∃ i, firstIndex l t = some i := by
  induction l with
  | nil => simp at h
  | cons a rest ih =>
    by_cases ha : a = t
    · exact ⟨0, by simp [firstIndex, ha]⟩
    · have hm : t ∈ rest := by
        rcases List.mem_cons.1 h with h1 | h1
        · exact absurd h1.symm ha
        · exact h1
      obtain ⟨i, hi⟩ := ih hm
      exact ⟨i + 1, by simp [firstIndex, ha, hi]⟩

lemma firstIndex_getD_self {α : Type} [DecidableEq α] {l : List α} (hn : l.Nodup)
    {k : ℕ} (hk : k < l.length) (dft : α) : firstIndex l (l.getD k dft) = some k := by
  induction l generalizing k with
  | nil => simp at hk
  | cons a rest ih =>
    rcases Nat.eq_zero_or_pos k with rfl | hpos
    · simp [firstIndex]
    · obtain ⟨m, rfl⟩ := Nat.exists_eq_succ_of_ne_zero (Nat.pos_iff_ne_zero.1 hpos)
      have hmlt : m < rest.length := by simpa using hk
      have hgd : (a :: rest).getD (m + 1) dft = rest.getD m dft := by simp [List.getD]
      rw [hgd]
      have hmem : rest.getD m dft ∈ rest := by
        rw [List.getD_eq_getElem rest dft hmlt]
        exact List.getElem_mem hmlt
      have hne : ¬ a = rest.getD m dft := by
        intro he
        exact (List.nodup_cons.1 hn).1 (he ▸ hmem)
      simp only [firstIndex, if_neg hne, ih (List.nodup_cons.1 hn).2 hmlt, Option.map_some']

lemma getD_map {α β : Type} (f : α → β) {l : List α} {i : ℕ} (hi : i < l.length)
    (d1 : α) (d2 : β) : (l.map f).getD i d2 = f (l.getD i d1) := by
  have hi2 : i < (l.map f).length := by simpa using hi
  rw [List.getD_eq_getElem _ d2 hi2, List.getD_eq_getElem _ d1 hi, List.getElem_map]

lemma axisMapping_eq {input target : List AxisType} (h : ∀ x ∈ target, x ∈ input) :
    axisMapping input target
      = .ok (target.map (fun t => (firstIndex input t).getD 0)) := by
  induction target with
  | nil => rfl
  | cons t ts ih =>
    obtain ⟨i, hi⟩ := firstIndex_of_mem (h t (by simp))
    have hts := ih (fun x hx => h x (by simp [hx]))
    simp [axisMapping, hi, hts]

/-- The position list computed by `rearrange_data` (first occurrence of each
target role in the input order). -/
def roleMapping (input target : List AxisType) : List ℕ :=
  target.map (fun t => (firstIndex input t).getD 0)

lemma roleMapping_length (input target : List AxisType) :
    (roleMapping input target).length = target.length := by
  simp [roleMapping]

lemma axisMapping_eq_roleMapping {input target : List AxisType}
    (h : ∀ x ∈ target, x ∈ input) :
    axisMapping input target = .ok (roleMapping input target) :=
  axisMapping_eq h

lemma roleMapping_lt {input target : List AxisType} (hsub : ∀ x ∈ target, x ∈ input) :
    ∀ j ∈ roleMapping input target, j < input.length := by
  intro j hj
  simp only [roleMapping, List.mem_map] at hj
  obtain ⟨t, ht, rfl⟩ := hj
  obtain ⟨i, hi⟩ := firstIndex_of_mem (hsub t ht)
  rw [hi]
  simpa using firstIndex_lt_length hi

lemma roleMapping_nodup {input target : List AxisType}
    (hTn : target.Nodup) (hsub : ∀ x ∈ target, x ∈ input) :
    (roleMapping input target).Nodup := by
  refine List.Nodup.map_on ?_ hTn
  intro x hx y hy hxy
  obtain ⟨i, hi⟩ := firstIndex_of_mem (hsub x hx)
  obtain ⟨j, hj⟩ := firstIndex_of_mem (hsub y hy)
  rw [hi, hj] at hxy
  simp only [Option.getD_some] at hxy
  subst hxy
  rw [← firstIndex_getD hi AxisType.STATES, ← firstIndex_getD hj AxisType.STATES]

lemma roleMapping_getD {input target : List AxisType} {k : ℕ} (hk : k < target.length) :
    (roleMapping input target).getD k 0
      = (firstIndex input (target.getD k AxisType.STATES)).getD 0 :=
  getD_map _ hk AxisType.STATES 0

lemma roleMapping_inverse {input target : List AxisType} (hIn : input.Nodup)
    (hmem : ∀ x, x ∈ target ↔ x ∈ input) {p : ℕ} (hp : p < input.length) :
    (roleMapping input target).getD ((roleMapping target input).getD p 0) 0 = p := by
  have hxin : input.getD p AxisType.STATES ∈ input := by
    rw [List.getD_eq_getElem input AxisType.STATES hp]
    exact List.getElem_mem hp
  have hxmem : input.getD p AxisType.STATES ∈ target := (hmem _).2 hxin
  obtain ⟨j, hj⟩ := firstIndex_of_mem hxmem
  have h1 : (roleMapping target input).getD p 0 = j := by
    rw [roleMapping_getD hp, hj, Option.getD_some]
  rw [h1]
  have hjlt : j < target.length := firstIndex_lt_length hj
  rw [roleMapping_getD hjlt, firstIndex_getD hj AxisType.STATES,
    firstIndex_getD_self hIn hp AxisType.STATES, Option.getD_some]

lemma roleMapping_getD_mem {input target : List AxisType}
    (hsub : ∀ x ∈ target, x ∈ input) {k : ℕ} (hk : k < target.length) :
    (roleMapping input target).getD k 0 < input.length := by
  have hmem : (roleMapping input target).getD k 0 ∈ roleMapping input target := by
    have hk2 : k < (roleMapping input target).length := by
      rwa [roleMapping_length]
    rw [List.getD_eq_getElem _ 0 hk2]
    exact List.getElem_mem hk2
  exact roleMapping_lt hsub _ hmem

lemma firstIndex_roleMapping {input target : List AxisType} (hIn : input.Nodup)
    (hTn : target.Nodup) (hmem : ∀ x, x ∈ target ↔ x ∈ input) {p : ℕ}
    (hp : p < input.length) :
    firstIndex (roleMapping input target) p
      = some ((roleMapping target input).getD p 0) := by
  have hMnodup : (roleMapping input target).Nodup :=
    roleMapping_nodup hTn (fun x hx => (hmem x).1 hx)
  have hk : (roleMapping target input).getD p 0 < (roleMapping input target).length := by
    rw [roleMapping_length]
    exact roleMapping_getD_mem (fun x hx => (hmem x).2 hx) hp
  have h := firstIndex_getD_self hMnodup hk 0
  rwa [roleMapping_inverse hIn hmem hp] at h

lemma npTranspose_ok {d : NDArray} {M : List ℕ} (h1 : M.length = d.shape.length)
    (h2 : M.Nodup) (h3 : ∀ i ∈ M, i < d.shape.length) :
    npTranspose d M = .ok ⟨M.map (fun i => d.shape.getD i 0),
      fun idx => d.val ((List.range M.length).map
        (fun p => idx.getD ((firstIndex M p).getD 0) 0))⟩ := by
  unfold npTranspose
  rw [if_neg (by omega), if_neg (not_not_intro h2), if_neg (not_not_intro h3)]

lemma range_map_getD (n : ℕ) (idx : List ℕ) (h : idx.length = n) :
    (List.range n).map (fun p => idx.getD p 0) = idx := by
  refine List.ext_getElem (by simpa using h.symm) ?_
  intro k hk1 hk2
  rw [List.getElem_map, List.getElem_range]
  exact List.getD_eq_getElem idx 0 hk2

/-- Applying `rearrange_data` forward along `target` and back along `input`
reproduces the original array whenever both role lists are duplicate-free
with the same membership. -/
lemma rearrange_roundtrip (d : NDArray) (input target : List AxisType)
    (hIn : input.Nodup) (hTn : target.Nodup) (hlen : target.length = input.length)
    (hmem : ∀ x, x ∈ target ↔ x ∈ input) (hshape : d.shape.length = input.length) :
    ∃ b c, rearrange_data d input target = .ok b ∧
      rearrange_data b target input = .ok c ∧
      c.shape = d.shape ∧
      ∀ idx, idx.length = d.shape.length → c.val idx = d.val idx := by
  have hsubTI : ∀ x ∈ target, x ∈ input := fun x hx => (hmem x).1 hx
  have hsubIT : ∀ x ∈ input, x ∈ target := fun x hx => (hmem x).2 hx
  have hMlen : (roleMapping input target).length = target.length :=
    roleMapping_length input target
  have hMilen : (roleMapping target input).length = input.length :=
    roleMapping_length target input
  have hMnodup : (roleMapping input target).Nodup := roleMapping_nodup hTn hsubTI
  have hMinodup : (roleMapping target input).Nodup := roleMapping_nodup hIn hsubIT
  have hMlt : ∀ j ∈ roleMapping input target, j < input.length := roleMapping_lt hsubTI
  have hMilt : ∀ j ∈ roleMapping target input, j < target.length := roleMapping_lt hsubIT
  refine ⟨⟨(roleMapping input target).map (fun i => d.shape.getD i 0),
      fun idx => d.val ((List.range (roleMapping input target).length).map
        (fun p => idx.getD ((firstIndex (roleMapping input target) p).getD 0) 0))⟩,
    ⟨(roleMapping target input).map (fun i =>
        ((roleMapping input target).map (fun i => d.shape.getD i 0)).getD i 0),
      fun idx => d.val ((List.range (roleMapping input target).length).map
        (fun p => (((List.range (roleMapping target input).length).map
            (fun q => idx.getD ((firstIndex (roleMapping target input) q).getD 0) 0))).getD
          ((firstIndex (roleMapping input target) p).getD 0) 0))⟩,
    ?_, ?_, ?_, ?_⟩
  · unfold rearrange_data
    rw [if_neg (not_not_intro hshape), axisMapping_eq_roleMapping hsubTI]
    exact npTranspose_ok (by omega) hMnodup (by rw [hshape]; exact hMlt)
  · unfold rearrange_data
    rw [if_neg (not_not_intro (by simp [hMlen] :
        ((roleMapping input target).map (fun i => d.shape.getD i 0)).length = target.length)),
      axisMapping_eq_roleMapping hsubIT]
    exact npTranspose_ok (by simp only [hMilen, List.length_map, hMlen]; omega)
      hMinodup (by simp only [List.length_map, hMlen]; exact hMilt)
  · -- shapes agree
    have hclen : ((roleMapping target input).map (fun i =>
        ((roleMapping input target).map (fun i => d.shape.getD i 0)).getD i 0)).length
        = d.shape.length := by
      simp [hMilen, hshape]
    refine List.ext_getElem hclen ?_
    intro k hk1 hk2
    have hkin : k < input.length := by omega
    have hkMi : k < (roleMapping target input).length := by omega
    rw [← List.getD_eq_getElem _ 0 hk1, ← List.getD_eq_getElem _ 0 hk2]
    rw [getD_map _ hkMi 0 0]
    have hMik : (roleMapping target input).getD k 0 < (roleMapping input target).length := by
      rw [hMlen]
      exact roleMapping_getD_mem hsubIT hkin
    rw [getD_map _ hMik 0 0, roleMapping_inverse hIn hmem hkin]
  · -- values agree
    intro idx hidx
    simp only []
    congr 1
    have hinner : ∀ p ∈ List.range (roleMapping input target).length,
        ((List.range (roleMapping target input).length).map
          (fun q => idx.getD ((firstIndex (roleMapping target input) q).getD 0) 0)).getD
            ((firstIndex (roleMapping input target) p).getD 0) 0 = idx.getD p 0 := by
      intro p hp
      have hpin : p < input.length := by
        have h1 := List.mem_range.1 hp
        omega
      rw [firstIndex_roleMapping hIn hTn hmem hpin, Option.getD_some]
      have hMtg := roleMapping_getD_mem hsubIT hpin
      have hMip : (roleMapping target input).getD p 0 < (roleMapping target input).length := by
        omega
      have hMipr : (roleMapping target input).getD p 0
          < (List.range (roleMapping target input).length).length := by
        simpa using hMip
      rw [getD_map _ hMipr 0 0]
      have hrg : (List.range (roleMapping target input).length).getD
          ((roleMapping target input).getD p 0) 0 = (roleMapping target input).getD p 0 := by
        rw [List.getD_eq_getElem _ 0 hMipr]
        exact List.getElem_range _ _
      have hp2 : p < (roleMapping target input).length := by omega
      rw [hrg, firstIndex_getD_self hMinodup hp2 0, Option.getD_some]
    rw [List.map_congr_left hinner, hMlen, hlen]
    exact range_map_getD input.length idx (by omega)

/-- Decidable form: for every duplicate-free role list, `get_target_order`
succeeds with a duplicate-free list of the same length and membership. -/
lemma target_order_props (input : List AxisType) (hn : input.Nodup) :
    (get_target_order input).map (fun t =>
      decide t.Nodup && (t.length == input.length) &&
      decide (∀ x, x ∈ t ↔ x ∈ input)) = .ok true := by
  have hle : input.length ≤ 4 := by simpa using List.Nodup.length_le_card hn
  rcases input with _ | ⟨a, _ | ⟨b, _ | ⟨c, _ | ⟨e, _ | ⟨f, rest⟩⟩⟩⟩⟩
  · decide
  · revert hn hle
    revert a
    decide
  · revert hn hle
    revert a b
    decide
  · revert hn hle
    revert a b c
    decide
  · revert hn hle
    revert a b c e
    decide
  · exfalso
    simp only [List.length_cons] at hle
    omega

lemma target_order_spec (input : List AxisType) (hn : input.Nodup) :
    ∃ t, get_target_order input = .ok t ∧ t.Nodup ∧ t.length = input.length ∧
      ∀ x, x ∈ t ↔ x ∈ input := by
  have h := target_order_props input hn
  cases hgt : get_target_order input with
  | error err => rw [hgt] at h; simp [Except.map] at h
  | ok t =>
    rw [hgt] at h
    simp only [Except.map, Except.ok.injEq] at h
    rw [Bool.and_eq_true, Bool.and_eq_true] at h
    refine ⟨t, rfl, of_decide_eq_true h.1.1, by simpa using h.1.2, of_decide_eq_true h.2⟩

/-- Claim C1 amended: `rearrange_data` computes its position mapping by
taking, for each role in `target_axes` in order, the first matching position
in `input_axes` with no consumption of already-used positions; when the
roles are pairwise distinct (which excludes a repeated SPATIAL) this mapping
is a valid permutation and is applied as a generalized transpose. -/
theorem claim_C1_amended (d : NDArray) (input target : List AxisType)
    (hIn : input.Nodup) (hTn : target.Nodup)
    (hlen : target.length = input.length)
    (hmem : ∀ x, x ∈ target ↔ x ∈ input)
    (hshape : d.shape.length = input.length) :
    ∃ M b, axisMapping input target = .ok M ∧
      (∀ k, k < target.length →
        M.getD k 0 = (firstIndex input (target.getD k AxisType.STATES)).getD 0) ∧
      M.Nodup ∧ (∀ j ∈ M, j < input.length) ∧
      rearrange_data d input target = .ok b ∧
      b.shape = M.map (fun i => d.shape.getD i 0) := by
  have hsubTI : ∀ x ∈ target, x ∈ input := fun x hx => (hmem x).1 hx
  refine ⟨roleMapping input target,
    ⟨(roleMapping input target).map (fun i => d.shape.getD i 0),
      fun idx => d.val ((List.range (roleMapping input target).length).map
        (fun p => idx.getD ((firstIndex (roleMapping input target) p).getD 0) 0))⟩,
    axisMapping_eq_roleMapping hsubTI,
    fun k hk => roleMapping_getD hk,
    roleMapping_nodup hTn hsubTI,
    roleMapping_lt hsubTI, ?_, rfl⟩
  unfold rearrange_data
  rw [if_neg (not_not_intro hshape), axisMapping_eq_roleMapping hsubTI]
  exact npTranspose_ok (by rw [roleMapping_length]; omega)
    (roleMapping_nodup hTn hsubTI) (by rw [hshape]; exact roleMapping_lt hsubTI)

/-- Witness for the amended C1 at the concrete scenario-A instance. -/
theorem claim_C1_amended_witness :
    ∃ M b, axisMapping [STATES, SPATIAL, SPECTRAL] [STATES, SPECTRAL, SPATIAL] = .ok M ∧
      (∀ k, k < ([STATES, SPECTRAL, SPATIAL] : List AxisType).length →
        M.getD k 0 = (firstIndex [STATES, SPATIAL, SPECTRAL]
          (([STATES, SPECTRAL, SPATIAL] : List AxisType).getD k AxisType.STATES)).getD 0) ∧
      M.Nodup ∧ (∀ j ∈ M, j < ([STATES, SPATIAL, SPECTRAL] : List AxisType).length) ∧
      rearrange_data arrC8 [STATES, SPATIAL, SPECTRAL] [STATES, SPECTRAL, SPATIAL] = .ok b ∧
      b.shape = M.map (fun i => arrC8.shape.getD i 0) :=
  claim_C1_amended arrC8 [STATES, SPATIAL, SPECTRAL] [STATES, SPECTRAL, SPATIAL]
    (by decide) (by decide) (by decide) (by decide) (by decide)

/-- Claim C2 amended: for every valid duplicate-free `AxisSpec` (at most one
SPATIAL axis) and its computed target order, permuting forward with
`rearrange_data` and back using the inverse role mapping reproduces the
original array's shape and values exactly. -/
theorem claim_C2_amended (d : NDArray) (input : List AxisType)
    (hv : validate_axis_combinations input = .ok ()) (hn : input.Nodup)
    (hshape : d.shape.length = input.length) :
    ∃ t b c, get_target_order input = .ok t ∧
      rearrange_data d input t = .ok b ∧
      rearrange_data b t input = .ok c ∧
      c.shape = d.shape ∧
      ∀ idx, idx.length = d.shape.length → c.val idx = d.val idx := by
  obtain ⟨t, hgt, htn, htl, htm⟩ := target_order_spec input hn
  obtain ⟨b, c, h1, h2, h3, h4⟩ := rearrange_roundtrip d input t hn htn htl htm hshape
  exact ⟨t, b, c, hgt, h1, h2, h3, h4⟩

/-- Witness for the amended C2 at the concrete scenario-A instance. -/
theorem claim_C2_amended_witness :
    ∃ t b c, get_target_order [STATES, SPATIAL, SPECTRAL] = .ok t ∧
      rearrange_data arrC8 [STATES, SPATIAL, SPECTRAL] t = .ok b ∧
      rearrange_data b t [STATES, SPATIAL, SPECTRAL] = .ok c ∧
      c.shape = arrC8.shape ∧
      ∀ idx, idx.length = arrC8.shape.length → c.val idx = arrC8.val idx :=
  claim_C2_amended arrC8 [STATES, SPATIAL, SPECTRAL] (by decide) (by decide) (by decide)

/-! Exact characterization of the rounded decade exponent. -/

lemma zpow_le_iff_le_log10 {r : ℚ} (hr : 0 < r) {n : ℤ} :
    (10:ℚ) ^ n ≤ r ↔ n ≤ Int.log 10 r := by
  have h := Int.zpow_le_iff_le_log (b := 10) (R := ℚ) (by norm_num) (x := n) hr
  simpa using h

lemma lt_zpow_iff_log10_lt {r : ℚ} (hr : 0 < r) {n : ℤ} :
    r < (10:ℚ) ^ n ↔ Int.log 10 r < n := by
  have h := Int.lt_zpow_iff_log_lt (b := 10) (R := ℚ) (by norm_num) (x := n) hr
  simpa using h

lemma zpow_log10_le {r : ℚ} (hr : 0 < r) : (10:ℚ) ^ Int.log 10 r ≤ r := by
  have h := Int.zpow_log_le_self (b := 10) (R := ℚ) (by norm_num) hr
  simpa using h

lemma lt_zpow_log10_succ (r : ℚ) : r < (10:ℚ) ^ (Int.log 10 r + 1) := by
  have h := Int.lt_zpow_succ_log_self (b := 10) (R := ℚ) (by norm_num) r
  simpa using h

/-- No rational squares to 10 (so `log10` of a rational is never an exact
half-integer). -/
lemma rat_mul_self_ne_ten (s : ℚ) : s * s ≠ 10 := by
  intro h
  have hnum : s.num * s.num = 10 := by
    have h1 : (s * s).num = (10:ℚ).num := by rw [h]
    rwa [Rat.mul_self_num, (by rfl : (10:ℚ).num = 10)] at h1
  have h2 : s.num ≤ 3 := by nlinarith
  have h3 : -3 ≤ s.num := by nlinarith
  nlinarith [mul_nonneg (by linarith : (0:ℤ) ≤ 3 - s.num) (by linarith : (0:ℤ) ≤ s.num + 3)]

lemma rat_sq_ne_odd_pow_ten (s : ℚ) (m : ℤ) : s ^ 2 ≠ (10:ℚ) ^ (2 * m + 1) := by
  intro h
  apply rat_mul_self_ne_ten (s * (10:ℚ) ^ (-m))
  have h10 : (10:ℚ) ≠ 0 := by norm_num
  calc (s * 10 ^ (-m)) * (s * 10 ^ (-m))
      = s ^ 2 * ((10:ℚ) ^ (-m) * 10 ^ (-m)) := by ring
    _ = (10:ℚ) ^ (2 * m + 1) * 10 ^ (-m + -m) := by rw [h, zpow_add₀ h10 (-m) (-m)]
    _ = (10:ℚ) ^ (2 * m + 1 + (-m + -m)) := (zpow_add₀ h10 _ _).symm
    _ = (10:ℚ) ^ (1:ℤ) := by congr 1; ring
    _ = 10 := zpow_one 10

/-- The defining property of `roundLog10`: `10^(2e-1) < r² < 10^(2e+1)`. -/
lemma roundLog10_char {r : ℚ} (hr : 0 < r) :
    (10:ℚ) ^ (2 * roundLog10 r - 1) < r ^ 2 ∧
      r ^ 2 < (10:ℚ) ^ (2 * roundLog10 r + 1) := by
  have hr2 : 0 < r ^ 2 := by positivity
  have hk1 : (10:ℚ) ^ Int.log 10 (r ^ 2) ≤ r ^ 2 := zpow_log10_le hr2
  have hk2 : r ^ 2 < (10:ℚ) ^ (Int.log 10 (r ^ 2) + 1) := lt_zpow_log10_succ (r ^ 2)
  have he : roundLog10 r = (Int.log 10 (r ^ 2) + 1) / 2 := rfl
  rcases Int.even_or_odd (Int.log 10 (r ^ 2)) with ⟨m, hm⟩ | ⟨m, hm⟩
  · have he2 : roundLog10 r = m := by rw [he, hm]; omega
    constructor
    · calc (10:ℚ) ^ (2 * roundLog10 r - 1)
          < (10:ℚ) ^ Int.log 10 (r ^ 2) :=
            zpow_lt_zpow_right₀ (by norm_num) (by rw [he2, hm]; omega)
        _ ≤ r ^ 2 := hk1
    · calc r ^ 2 < (10:ℚ) ^ (Int.log 10 (r ^ 2) + 1) := hk2
        _ = (10:ℚ) ^ (2 * roundLog10 r + 1) := by rw [he2, hm]; congr 1; ring
  · have he2 : roundLog10 r = m + 1 := by rw [he, hm]; omega
    constructor
    · have hne : r ^ 2 ≠ (10:ℚ) ^ (2 * m + 1) := rat_sq_ne_odd_pow_ten r m
      have heq : (10:ℚ) ^ (2 * roundLog10 r - 1) = (10:ℚ) ^ Int.log 10 (r ^ 2) := by
        rw [he2, hm]; congr 1; ring
      rw [heq]
      refine lt_of_le_of_ne hk1 ?_
      rw [hm]
      exact fun hh => hne hh.symm
    · calc r ^ 2 < (10:ℚ) ^ (Int.log 10 (r ^ 2) + 1) := hk2
        _ < (10:ℚ) ^ (2 * roundLog10 r + 1) :=
            zpow_lt_zpow_right₀ (by norm_num) (by rw [he2, hm]; omega)

/-- Any positive rational whose square lies strictly inside one decade of 1
has rounded decade exponent 0. -/
lemma roundLog10_eq_zero_of_band {s : ℚ}
    (h1 : (10:ℚ) ^ (-1 : ℤ) < s ^ 2) (h2 : s ^ 2 < 10) : roundLog10 s = 0 := by
  have hs2 : 0 < s ^ 2 := lt_trans (by positivity) h1
  have hlo : (-1 : ℤ) ≤ Int.log 10 (s ^ 2) :=
    (zpow_le_iff_le_log10 hs2).1 (le_of_lt h1)
  have hhi : Int.log 10 (s ^ 2) < 1 :=
    (lt_zpow_iff_log10_lt hs2).1 (by simpa using h2)
  have he : roundLog10 s = (Int.log 10 (s ^ 2) + 1) / 2 := rfl
  omega

/-- Rescaling by the inverse rounded decade brings the value into the
identity band of `roundLog10`. -/
lemma roundLog10_shift {r : ℚ} (hr : 0 < r) :
    roundLog10 (r * (10:ℚ) ^ (-(roundLog10 r))) = 0 := by
  obtain ⟨h1, h2⟩ := roundLog10_char hr
  have h10 : (10:ℚ) ≠ 0 := by norm_num
  have hsq : (r * (10:ℚ) ^ (-(roundLog10 r))) ^ 2
      = r ^ 2 * (10:ℚ) ^ (-(2 * roundLog10 r)) := by
    rw [mul_pow]
    congr 1
    rw [← zpow_natCast ((10:ℚ) ^ (-(roundLog10 r))) 2, ← zpow_mul]
    congr 1
    push_cast
    ring
  have hpos : (0:ℚ) < (10:ℚ) ^ (-(2 * roundLog10 r)) := by positivity
  apply roundLog10_eq_zero_of_band
  · rw [hsq]
    calc (10:ℚ) ^ (-1 : ℤ)
        = (10:ℚ) ^ (2 * roundLog10 r - 1) * (10:ℚ) ^ (-(2 * roundLog10 r)) := by
          rw [← zpow_add₀ h10]; congr 1; ring
      _ < r ^ 2 * (10:ℚ) ^ (-(2 * roundLog10 r)) :=
          mul_lt_mul_of_pos_right h1 hpos
  · rw [hsq]
    calc r ^ 2 * (10:ℚ) ^ (-(2 * roundLog10 r))
        < (10:ℚ) ^ (2 * roundLog10 r + 1) * (10:ℚ) ^ (-(2 * roundLog10 r)) :=
          mul_lt_mul_of_pos_right h2 hpos
      _ = (10:ℚ) ^ (1:ℤ) := by rw [← zpow_add₀ h10]; congr 1; ring
      _ = 10 := zpow_one 10

/-! Behaviour of the flattened values under elementwise scaling. -/

lemma finiteVals_map_mul (data : List FVal) (c : ℚ) :
    finiteVals (data.map (fun v => v.mul c)) = (finiteVals data).map (· * c) := by
  induction data with
  | nil => rfl
  | cons a t ih => cases a <;> simp [finiteVals, FVal.mul, ih] <;>
      simpa [finiteVals] using ih

lemma dataMaxAbs_nonneg (l : List ℚ) : 0 ≤ dataMaxAbs l := by
  unfold dataMaxAbs
  induction l with
  | nil => simp
  | cons a t ih =>
    simp only [List.map_cons, List.foldr_cons]
    exact le_max_of_le_right ih

lemma dataMaxAbs_map_mul (l : List ℚ) {c : ℚ} (hc : 0 ≤ c) :
    dataMaxAbs (l.map (· * c)) = dataMaxAbs l * c := by
  unfold dataMaxAbs
  induction l with
  | nil => simp
  | cons a t ih =>
    simp only [List.map_cons, List.foldr_cons, ih, abs_mul, abs_of_nonneg hc]
    rw [max_mul_of_nonneg _ _ hc]

/-- The scaling branch of `analyze_data_range`. -/
lemma analyze_of_scale {data : List FVal} (h1 : data.length ≠ 0)
    (h2 : (finiteVals data).length ≠ 0) (h3 : dataMaxAbs (finiteVals data) ≠ 0)
    (h4 : ¬ (1/10 ≤ dataMaxAbs (finiteVals data) ∧ dataMaxAbs (finiteVals data) ≤ 10)) :
    analyze_data_range data
      = ⟨(10:ℚ) ^ roundLog10 (5 / dataMaxAbs (finiteVals data)),
         roundLog10 (5 / dataMaxAbs (finiteVals data)),
         scale_label (roundLog10 (5 / dataMaxAbs (finiteVals data)))⟩ := by
  simp only [analyze_data_range]
  rw [if_neg h1, if_neg h2, if_neg h3, if_neg h4]

/-! Claim C5. -/

/-- Claim C5: whenever `analyze_data_range` applies scaling (factor ≠ 1),
the factor is exactly `10 ^ exponent`, and reapplying `analyze_data_range`
to the already-scaled values returns the identity `(1.0, 0, "")` — one
scaling pass is idempotent. -/
theorem claim_C5 (data : List FVal)
    (h : (analyze_data_range data).factor ≠ 1) :
    (analyze_data_range data).factor = (10:ℚ) ^ (analyze_data_range data).exponent ∧
    analyze_data_range (data.map (fun v => v.mul (analyze_data_range data).factor))
      = identityTriple := by
  by_cases h1 : data.length = 0
  · exact absurd (by rw [analyze_of_isEmpty h1]; rfl : (analyze_data_range data).factor = 1) h
  by_cases h2 : (finiteVals data).length = 0
  · exact absurd (by rw [analyze_of_noFinite h2]; rfl : (analyze_data_range data).factor = 1) h
  by_cases h3 : dataMaxAbs (finiteVals data) = 0
  · exact absurd (by rw [analyze_of_maxZero h3]; rfl : (analyze_data_range data).factor = 1) h
  by_cases h4 : 1/10 ≤ dataMaxAbs (finiteVals data) ∧ dataMaxAbs (finiteVals data) ≤ 10
  · exact absurd (by rw [analyze_of_band h4.1 h4.2]; rfl : (analyze_data_range data).factor = 1) h
  have ha := analyze_of_scale h1 h2 h3 h4
  have hmpos : 0 < dataMaxAbs (finiteVals data) :=
    lt_of_le_of_ne (dataMaxAbs_nonneg _) (Ne.symm h3)
  have hfac : (analyze_data_range data).factor
      = (10:ℚ) ^ roundLog10 (5 / dataMaxAbs (finiteVals data)) := by rw [ha]
  have hexp : (analyze_data_range data).exponent
      = roundLog10 (5 / dataMaxAbs (finiteVals data)) := by rw [ha]
  refine ⟨by rw [hfac, hexp], ?_⟩
  rw [hfac]
  have hfpos : (0:ℚ) < (10:ℚ) ^ roundLog10 (5 / dataMaxAbs (finiteVals data)) := by
    positivity
  have hfv : finiteVals (data.map (fun v =>
        v.mul ((10:ℚ) ^ roundLog10 (5 / dataMaxAbs (finiteVals data)))))
      = (finiteVals data).map
        (· * (10:ℚ) ^ roundLog10 (5 / dataMaxAbs (finiteVals data))) :=
    finiteVals_map_mul data _
  have hlen2 : (finiteVals (data.map (fun v =>
        v.mul ((10:ℚ) ^ roundLog10 (5 / dataMaxAbs (finiteVals data)))))).length ≠ 0 := by
    rw [hfv]
    simpa using h2
  have hmax2 : dataMaxAbs (finiteVals (data.map (fun v =>
        v.mul ((10:ℚ) ^ roundLog10 (5 / dataMaxAbs (finiteVals data))))))
      = dataMaxAbs (finiteVals data)
        * (10:ℚ) ^ roundLog10 (5 / dataMaxAbs (finiteVals data)) := by
    rw [hfv, dataMaxAbs_map_mul _ (le_of_lt hfpos)]
  by_cases hband : 1/10 ≤ dataMaxAbs (finiteVals data)
        * (10:ℚ) ^ roundLog10 (5 / dataMaxAbs (finiteVals data))
      ∧ dataMaxAbs (finiteVals data)
        * (10:ℚ) ^ roundLog10 (5 / dataMaxAbs (finiteVals data)) ≤ 10
  · exact analyze_of_band (hmax2 ▸ hband.1) (hmax2 ▸ hband.2)
  · have hm2pos : (0:ℚ) < dataMaxAbs (finiteVals data)
        * (10:ℚ) ^ roundLog10 (5 / dataMaxAbs (finiteVals data)) := mul_pos hmpos hfpos
    have h5 : (5:ℚ) / (dataMaxAbs (finiteVals data)
          * (10:ℚ) ^ roundLog10 (5 / dataMaxAbs (finiteVals data)))
        = (5 / dataMaxAbs (finiteVals data))
          * (10:ℚ) ^ (-(roundLog10 (5 / dataMaxAbs (finiteVals data)))) := by
      rw [zpow_neg, ← div_div, div_eq_mul_inv]
    have hrz : roundLog10 ((5:ℚ) / (dataMaxAbs (finiteVals data)
          * (10:ℚ) ^ roundLog10 (5 / dataMaxAbs (finiteVals data)))) = 0 := by
      rw [h5]
      exact roundLog10_shift (by positivity)
    have ha2 := @analyze_of_scale (data.map (fun v =>
        v.mul ((10:ℚ) ^ roundLog10 (5 / dataMaxAbs (finiteVals data)))))
      (by simpa using h1) hlen2 (by rw [hmax2]; exact hm2pos.ne')
      (by rwa [hmax2])
    rw [ha2, hmax2, hrz]
    simp [identityTriple, scale_label]

lemma int_log10_eval {r : ℚ} {k : ℤ} (hr : 0 < r)
    (h1 : (10:ℚ) ^ k ≤ r) (h2 : r < (10:ℚ) ^ (k + 1)) : Int.log 10 r = k := by
  have l1 := (zpow_le_iff_le_log10 hr).1 h1
  have l2 := (lt_zpow_iff_log10_lt hr).1 h2
  omega

lemma roundLog10_5_div_100 : roundLog10 ((5:ℚ) / 100) = -1 := by
  have hsq : ((5:ℚ) / 100) ^ 2 = 1 / 400 := by norm_num
  have hlog : Int.log 10 (((5:ℚ) / 100) ^ 2) = -3 := by
    rw [hsq]
    exact int_log10_eval (by norm_num) (by norm_num) (by norm_num)
  unfold roundLog10
  rw [hlog]
  decide

lemma dataMaxAbs_fin_100 : dataMaxAbs (finiteVals [FVal.fin 100]) = 100 := by
  simp [dataMaxAbs, finiteVals]

lemma analyze_fin_100 : analyze_data_range [FVal.fin 100]
    = ⟨1/10, -1, "×10⁻¹"⟩ := by
  have ha := @analyze_of_scale [FVal.fin 100] (by simp)
    (by simp [finiteVals]) (by rw [dataMaxAbs_fin_100]; norm_num)
    (by rw [dataMaxAbs_fin_100]; norm_num)
  rw [ha, dataMaxAbs_fin_100, roundLog10_5_div_100]
  have hfac : (10:ℚ) ^ (-1 : ℤ) = 1/10 := by norm_num
  have hlab : scale_label (-1) = "×10⁻¹" := by decide
  rw [hfac, hlab]

/-- Witness for C5 at the concrete array `[100.0]`: factor 0.1, exponent -1,
and the rescaled array `[10.0]` analyzes to the identity. -/
theorem claim_C5_witness :
    (analyze_data_range [FVal.fin 100]).factor ≠ 1 ∧
    ((analyze_data_range [FVal.fin 100]).factor
        = (10:ℚ) ^ (analyze_data_range [FVal.fin 100]).exponent ∧
      analyze_data_range ([FVal.fin 100].map (fun v =>
        v.mul (analyze_data_range [FVal.fin 100]).factor)) = identityTriple) := by
  have hne : (analyze_data_range [FVal.fin 100]).factor ≠ 1 := by
    rw [analyze_fin_100]
    norm_num
  exact ⟨hne, claim_C5 _ hne⟩

/-! Claim C6. -/

lemma roundLog10_5_div_15 : roundLog10 ((5:ℚ) / 15) = 0 := by
  have hsq : ((5:ℚ) / 15) ^ 2 = 1 / 9 := by norm_num
  have hlog : Int.log 10 (((5:ℚ) / 15) ^ 2) = -1 := by
    rw [hsq]
    exact int_log10_eval (by norm_num) (by norm_num) (by norm_num)
  unfold roundLog10
  rw [hlog]
  decide

lemma dataMaxAbs_fin_15 : dataMaxAbs (finiteVals [FVal.fin 15]) = 15 := by
  simp [dataMaxAbs, finiteVals]

/-- Claim C6 counterexample: the array `[15.0]` is non-empty, all-finite,
with nonzero maximum 15 lying outside the band [0.1, 10], yet
`analyze_data_range` still returns the identity triple, because the
exponent `round(log10(5/15))` rounds to 0 — so the listed cases are not
exactly the identity cases. -/
theorem claim_C6_counterexample :
    analyze_data_range [FVal.fin 15] = identityTriple ∧
    ([FVal.fin 15] : List FVal).length ≠ 0 ∧
    (finiteVals [FVal.fin 15]).length ≠ 0 ∧
    dataMaxAbs (finiteVals [FVal.fin 15]) ≠ 0 ∧
    ¬ (1/10 ≤ dataMaxAbs (finiteVals [FVal.fin 15])
        ∧ dataMaxAbs (finiteVals [FVal.fin 15]) ≤ 10) := by
  refine ⟨?_, by simp, by simp [finiteVals], by rw [dataMaxAbs_fin_15]; norm_num,
    by rw [dataMaxAbs_fin_15]; norm_num⟩
  have ha := @analyze_of_scale [FVal.fin 15] (by simp)
    (by simp [finiteVals]) (by rw [dataMaxAbs_fin_15]; norm_num)
    (by rw [dataMaxAbs_fin_15]; norm_num)
  rw [ha, dataMaxAbs_fin_15, roundLog10_5_div_15]
  simp [identityTriple, scale_label]

/-- Claim C6 amended: `analyze_data_range` never raises and returns the
identity triple exactly when the array is empty, all values are non-finite,
the maximum finite absolute value is 0, that maximum lies in [0.1, 10.0],
or additionally when the computed decade exponent rounds to 0 (maxima in
(10, 5·√10), e.g. 15). -/
theorem claim_C6_amended (data : List FVal) :
    analyze_data_range data = identityTriple ↔
      (data.length = 0 ∨ (finiteVals data).length = 0 ∨
       dataMaxAbs (finiteVals data) = 0 ∨
       (1/10 ≤ dataMaxAbs (finiteVals data) ∧ dataMaxAbs (finiteVals data) ≤ 10) ∨
       roundLog10 (5 / dataMaxAbs (finiteVals data)) = 0) := by
  constructor
  · intro h
    by_cases h1 : data.length = 0
    · exact Or.inl h1
    by_cases h2 : (finiteVals data).length = 0
    · exact Or.inr (Or.inl h2)
    by_cases h3 : dataMaxAbs (finiteVals data) = 0
    · exact Or.inr (Or.inr (Or.inl h3))
    by_cases h4 : 1/10 ≤ dataMaxAbs (finiteVals data) ∧ dataMaxAbs (finiteVals data) ≤ 10
    · exact Or.inr (Or.inr (Or.inr (Or.inl h4)))
    refine Or.inr (Or.inr (Or.inr (Or.inr ?_)))
    rw [analyze_of_scale h1 h2 h3 h4] at h
    exact congrArg ScaleTriple.exponent h
  · intro h
    rcases h with h | h | h | h | h
    · exact analyze_of_isEmpty h
    · exact analyze_of_noFinite h
    · exact analyze_of_maxZero h
    · exact analyze_of_band h.1 h.2
    · by_cases h1 : data.length = 0
      · exact analyze_of_isEmpty h1
      by_cases h2 : (finiteVals data).length = 0
      · exact analyze_of_noFinite h2
      by_cases h3 : dataMaxAbs (finiteVals data) = 0
      · exact analyze_of_maxZero h3
      by_cases h4 : 1/10 ≤ dataMaxAbs (finiteVals data) ∧ dataMaxAbs (finiteVals data) ≤ 10
      · exact analyze_of_band h4.1 h4.2
      rw [analyze_of_scale h1 h2 h3 h4, h]
      simp [identityTriple, scale_label]

/-! Claim C7. -/

lemma dictSet_cons_ne {β : Type} {p : ScaleKey × β} {t : List (ScaleKey × β)}
    {k : ScaleKey} {v : β} (hp : p.1 ≠ k) :
    dictSet (p :: t) k v = p :: dictSet t k v := by
  by_cases ht : t.any (fun q => q.1 = k)
  · simp [dictSet, hp, ht]
  · simp [dictSet, hp, ht]

lemma find?_map_update_ne {β : Type} (t : List (ScaleKey × β)) {k k2 : ScaleKey}
    (v : β) (hne : k2 ≠ k) :
    (t.map (fun p => if p.1 = k then (k, v) else p)).find? (fun p => p.1 = k2)
      = t.find? (fun p => p.1 = k2) := by
  induction t with
  | nil => rfl
  | cons p rest ih =>
    by_cases hp : p.1 = k
    · have h1 : ¬ ((k, v).1 = k2) := by simpa using fun he => hne he.symm
      have h2 : ¬ (p.1 = k2) := fun he => hne (by rw [← he, hp])
      simp [List.find?_cons, hp, h1, h2, ih]
    · simp only [List.map_cons, if_neg hp, List.find?_cons]
      by_cases hp2 : p.1 = k2
      · simp [hp2]
      · simp [hp2, ih]

lemma dictGet_dictSet {β : Type} (d : List (ScaleKey × β)) (k k2 : ScaleKey) (v : β) :
    dictGet (dictSet d k v) k2 = if k2 = k then some v else dictGet d k2 := by
  induction d with
  | nil =>
    by_cases h : k2 = k
    · simp [dictSet, dictGet, h]
    · simp [dictSet, dictGet, h, Ne.symm h]
  | cons p t ih =>
    by_cases hp : p.1 = k
    · have hany : (p :: t).any (fun q => q.1 = k) = true := by simp [hp]
      by_cases h2 : k2 = k
      · subst h2
        simp [dictSet, hany, dictGet, List.find?_cons, hp]
      · have h1 : ¬ ((k, v).1 = k2) := by simpa using fun he => h2 he.symm
        have h3 : ¬ (p.1 = k2) := fun he => h2 (by rw [← he, hp])
        simp [dictSet, hany, hp, dictGet, List.find?_cons, h1, h3, h2,
          find?_map_update_ne t v h2]
    · rw [dictSet_cons_ne hp]
      by_cases hpk2 : p.1 = k2
      · have h2 : ¬ k2 = k := fun he => hp (he ▸ hpk2)
        simp [dictGet, List.find?_cons, hpk2, h2]
      · simp only [dictGet] at ih
        simp [dictGet, List.find?_cons, hpk2, ih]

lemma dictGet_scaleFoldl {β : Type} (v : ℕ → β) (n : ℕ)
    (init : List (ScaleKey × β)) {i : ℕ} (hi : i < n) :
    dictGet ((List.range n).foldl (fun fs j => dictSet fs (ScaleKey.state j) (v j)) init)
      (ScaleKey.state i) = some (v i) := by
  induction n with
  | zero => omega
  | succ m ih =>
    rw [List.range_succ, List.foldl_append, List.foldl_cons, List.foldl_nil,
      dictGet_dictSet]
    rcases Nat.lt_succ_iff_lt_or_eq.1 hi with h | h
    · rw [if_neg (by simpa using fun he : i = m => absurd he (by omega))]
      exact ih h
    · subst h
      rw [if_pos rfl]

lemma insertAt_getD_eraseIdx (idx : List ℕ) (s : ℕ) (h : s < idx.length) :
    insertAt s (idx.getD s 0) (idx.eraseIdx s) = idx := by
  induction idx generalizing s with
  | nil => simp at h
  | cons a t ih =>
    cases s with
    | zero => simp [insertAt, List.getD]
    | succ m =>
      have hm : m < t.length := by simpa using h
      simp only [List.eraseIdx_cons_succ, List.getD_cons_succ, insertAt]
      rw [ih m hm]

lemma sliceVals_congr {d1 d2 : NDArray} (sIdx i : ℕ) (hshape : d1.shape = d2.shape)
    (hslice : ∀ sub, d1.val (insertAt sIdx i sub) = d2.val (insertAt sIdx i sub)) :
    sliceVals d1 sIdx i = sliceVals d2 sIdx i := by
  unfold sliceVals
  rw [hshape]
  exact List.map_congr_left (fun sub _ => hslice sub)

/-- Claim C7: with a STATES axis, the factor/exponent/label recorded for a
state depend only on that state's own slice (two-run statement: changing
other states' values leaves them unchanged), and a state's factor is applied
only to that state's slice (the scaled value at an index of the slice is
determined by the slice alone). -/
theorem claim_C7 (st1 st2 : ScalerState) (d1 d2 : NDArray)
    (target_axes : List AxisType) (i : ℕ) (hax : STATES ∈ target_axes)
    (hshape : d1.shape = d2.shape)
    (hi : i < d1.shape.getD ((firstIndex target_axes STATES).getD 0) 0)
    (hslice : ∀ sub, d1.val (insertAt ((firstIndex target_axes STATES).getD 0) i sub)
      = d2.val (insertAt ((firstIndex target_axes STATES).getD 0) i sub)) :
    (dictGet (scale_data st1 d1 target_axes true).1.factors (ScaleKey.state i)
      = dictGet (scale_data st2 d2 target_axes true).1.factors (ScaleKey.state i)) ∧
    (dictGet (scale_data st1 d1 target_axes true).1.exponents (ScaleKey.state i)
      = dictGet (scale_data st2 d2 target_axes true).1.exponents (ScaleKey.state i)) ∧
    (dictGet (scale_data st1 d1 target_axes true).1.labels (ScaleKey.state i)
      = dictGet (scale_data st2 d2 target_axes true).1.labels (ScaleKey.state i)) ∧
    (∀ idx, idx.getD ((firstIndex target_axes STATES).getD 0) 0 = i →
      (scale_data st1 d1 target_axes true).2.val idx
        = if (analyze_data_range (sliceVals d1
              ((firstIndex target_axes STATES).getD 0) i)).factor ≠ 1
          then (d1.val idx).mul (analyze_data_range (sliceVals d1
              ((firstIndex target_axes STATES).getD 0) i)).factor
          else d1.val idx) ∧
    (∀ idx, (firstIndex target_axes STATES).getD 0 < idx.length →
      idx.getD ((firstIndex target_axes STATES).getD 0) 0 = i →
      (scale_data st1 d1 target_axes true).2.val idx
        = (scale_data st2 d2 target_axes true).2.val idx) := by
  have hany : target_axes.any (fun ax => ax = STATES) = true := by
    rw [List.any_eq_true]
    exact ⟨STATES, hax, by simp⟩
  have hsl : sliceVals d1 ((firstIndex target_axes STATES).getD 0) i
      = sliceVals d2 ((firstIndex target_axes STATES).getD 0) i :=
    sliceVals_congr _ _ hshape hslice
  have hi2 : i < d2.shape.getD ((firstIndex target_axes STATES).getD 0) 0 := by
    rw [← hshape]
    exact hi
  have e1 : dictGet (scale_data st1 d1 target_axes true).1.factors (ScaleKey.state i)
      = some ((analyze_data_range (sliceVals d1
          ((firstIndex target_axes STATES).getD 0) i)).factor) := by
    simp only [scale_data, Bool.not_true, Bool.false_eq_true, if_false, hany,
      Bool.not_false]
    rw [scaleFold_proj]
    exact dictGet_scaleFoldl _ _ _ hi
  have e2 : dictGet (scale_data st2 d2 target_axes true).1.factors (ScaleKey.state i)
      = some ((analyze_data_range (sliceVals d2
          ((firstIndex target_axes STATES).getD 0) i)).factor) := by
    simp only [scale_data, Bool.not_true, Bool.false_eq_true, if_false, hany,
      Bool.not_false]
    rw [scaleFold_proj]
    exact dictGet_scaleFoldl _ _ _ hi2
  have e3 : dictGet (scale_data st1 d1 target_axes true).1.exponents (ScaleKey.state i)
      = some ((analyze_data_range (sliceVals d1
          ((firstIndex target_axes STATES).getD 0) i)).exponent) := by
    simp only [scale_data, Bool.not_true, Bool.false_eq_true, if_false, hany,
      Bool.not_false]
    rw [scaleFold_proj]
    exact dictGet_scaleFoldl _ _ _ hi
  have e4 : dictGet (scale_data st2 d2 target_axes true).1.exponents (ScaleKey.state i)
      = some ((analyze_data_range (sliceVals d2
          ((firstIndex target_axes STATES).getD 0) i)).exponent) := by
    simp only [scale_data, Bool.not_true, Bool.false_eq_true, if_false, hany,
      Bool.not_false]
    rw [scaleFold_proj]
    exact dictGet_scaleFoldl _ _ _ hi2
  have e5 : dictGet (scale_data st1 d1 target_axes true).1.labels (ScaleKey.state i)
      = some ((analyze_data_range (sliceVals d1
          ((firstIndex target_axes STATES).getD 0) i)).label) := by
    simp only [scale_data, Bool.not_true, Bool.false_eq_true, if_false, hany,
      Bool.not_false]
    rw [scaleFold_proj]
    exact dictGet_scaleFoldl _ _ _ hi
  have e6 : dictGet (scale_data st2 d2 target_axes true).1.labels (ScaleKey.state i)
      = some ((analyze_data_range (sliceVals d2
          ((firstIndex target_axes STATES).getD 0) i)).label) := by
    simp only [scale_data, Bool.not_true, Bool.false_eq_true, if_false, hany,
      Bool.not_false]
    rw [scaleFold_proj]
    exact dictGet_scaleFoldl _ _ _ hi2
  have f1 : ∀ idx, idx.getD ((firstIndex target_axes STATES).getD 0) 0 = i →
      (scale_data st1 d1 target_axes true).2.val idx
        = if (analyze_data_range (sliceVals d1
              ((firstIndex target_axes STATES).getD 0) i)).factor ≠ 1
          then (d1.val idx).mul (analyze_data_range (sliceVals d1
              ((firstIndex target_axes STATES).getD 0) i)).factor
          else d1.val idx := by
    intro idx hcoord
    simp only [scale_data, Bool.not_true, Bool.false_eq_true, if_false, hany,
      Bool.not_false, hcoord]
    rw [if_pos hi]
  have f2 : ∀ idx, idx.getD ((firstIndex target_axes STATES).getD 0) 0 = i →
      (scale_data st2 d2 target_axes true).2.val idx
        = if (analyze_data_range (sliceVals d2
              ((firstIndex target_axes STATES).getD 0) i)).factor ≠ 1
          then (d2.val idx).mul (analyze_data_range (sliceVals d2
              ((firstIndex target_axes STATES).getD 0) i)).factor
          else d2.val idx := by
    intro idx hcoord
    simp only [scale_data, Bool.not_true, Bool.false_eq_true, if_false, hany,
      Bool.not_false, hcoord]
    rw [if_pos hi2]
  refine ⟨by rw [e1, e2, hsl], by rw [e3, e4, hsl], by rw [e5, e6, hsl], f1, ?_⟩
  intro idx hlen hcoord
  have h0 := insertAt_getD_eraseIdx idx ((firstIndex target_axes STATES).getD 0) hlen
  rw [hcoord] at h0
  have hv := hslice (idx.eraseIdx ((firstIndex target_axes STATES).getD 0))
  rw [h0] at hv
  rw [f1 idx hcoord, f2 idx hcoord, hsl, hv]

/-- A rank-2 array of shape (2, 2) agreeing with `dStates` on state 0 but
different on state 1. -/
def dStatesAlt : NDArray :=
  ⟨[2, 2], fun idx => if idx.getD 0 0 = 0 then .fin 1 else .fin 7⟩

/-- Witness for C7: two arrays differing only in state 1 record the same
factor for state 0. -/
theorem claim_C7_witness :
    dictGet (scale_data ScalerState.init dStates [STATES, SPECTRAL] true).1.factors
        (ScaleKey.state 0)
      = dictGet (scale_data ScalerState.init dStatesAlt [STATES, SPECTRAL] true).1.factors
        (ScaleKey.state 0) :=
  (claim_C7 ScalerState.init ScalerState.init dStates dStatesAlt [STATES, SPECTRAL] 0
    (by decide) rfl (by decide) (fun sub => rfl)).1
